import Mathlib

/-!
# LXD instance GET handler and network-zone driver interface

A shallow embedding of

* `lxd/instance_get.go` : the handler `instanceGet`;
* `lxd/network/zone/interface.go` : the interface `NetworkZone`.

The handler is sequential code that talks to collaborators (type detection,
forwarding, the instance loader, the two renderers).  Collaborators are fields
of an environment record; each one takes the current world (the daemon and all
that is reachable from it) and hands back its Go result tuple together with the
next world.  Every call site of the handler appends one entry to a call log, so
that "is invoked" and "is invoked once" are statements about that log.

A Go result `(x, err)` is kept as a tuple whose error component is an `Option`:
`none` is the nil error.
-/

namespace Lxd

/-! ## Go standard library: `strconv.Atoi` -/

/-- The two sentinel errors of package strconv (`ErrSyntax`, `ErrRange`). -/
inductive NumError where
  | ErrSyn
  | ErrRange
  deriving DecidableEq, Repr

/-- Width of Go's `int`: the constant `intSize` of package strconv is 32 or 64,
fixed by the platform. -/
inductive IntSize where
  | w32
  | w64
  deriving DecidableEq, Repr

/-- Number of bits of an `int`. -/
def IntSize.bits : IntSize → Nat
  | IntSize.w32 => 32
  | IntSize.w64 => 64

/-- Value of a decimal digit byte, as `ch - '0'` followed by the test `ch > 9`. -/
def digitVal (c : Char) : Option Nat :=
  if 48 ≤ c.toNat ∧ c.toNat ≤ 57 then some (c.toNat - 48) else none

/-- Largest `uint64`. -/
def maxUint64 : Nat := 2 ^ 64 - 1

/-- Loop of `strconv.ParseUint(s, 10, bitSize)` over the remaining bytes, with
accumulator `n`.  A byte that is not a digit is a syntax error (base 10 admits no
underscore); an overflow stops the loop at once with `maxVal` and a range error. -/
def parseUintLoop (maxVal : Nat) : List Char → Nat → Nat × Option NumError
  | [], n => (n, none)
  | c :: cs, n =>
    match digitVal c with
    | none => (0, some NumError.ErrSyn)
    | some d =>
      if n ≥ maxUint64 / 10 + 1 then (maxVal, some NumError.ErrRange)
      else
        let n10 := n * 10
        let n1 := (n10 + d) % 2 ^ 64
        if n1 < n10 ∨ n1 > maxVal then (maxVal, some NumError.ErrRange)
        else parseUintLoop maxVal cs n1

/-- Model of `strconv.ParseUint(s, 10, bitSize)` for `bitSize = intSize`. -/
def ParseUint (intSize : IntSize) (s : List Char) : Nat × Option NumError :=
  match s with
  | [] => (0, some NumError.ErrSyn)
  | _ => parseUintLoop (2 ^ intSize.bits - 1) s 0

/-- The part of `strconv.ParseInt` that follows its call of `ParseUint`: a
syntax error is handed on; otherwise the unsigned value `un` (which is `maxVal`
after a range error) is checked against `cutoff = 1 << (bitSize-1)` and the
sign is applied. -/
def parseIntRange (intSize : IntSize) (neg : Bool) :
    Nat × Option NumError → Int × Option NumError
  | (_, some NumError.ErrSyn) => (0, some NumError.ErrSyn)
  | (un, _) =>
    let cutoff := 2 ^ (intSize.bits - 1)
    if !neg ∧ un ≥ cutoff then ((cutoff : Nat) - 1, some NumError.ErrRange)
    else if neg ∧ un > cutoff then (-(cutoff : Nat), some NumError.ErrRange)
    else (if neg then -(un : Int) else (un : Int), none)

/-- Model of `strconv.ParseInt(s, 10, 0)`: the bit size 0 stands for `intSize`. -/
def ParseInt (intSize : IntSize) (s : List Char) : Int × Option NumError :=
  match s with
  | [] => (0, some NumError.ErrSyn)
  | c0 :: rest =>
    let neg := c0 == '-'
    let body := if c0 == '+' ∨ c0 == '-' then rest else s
    parseIntRange intSize neg (ParseUint intSize body)

/-- Fast path of `strconv.Atoi`: the digit loop over a short string. -/
def atoiFast : List Char → Nat → Option Nat
  | [], n => some n
  | c :: cs, n =>
    match digitVal c with
    | none => none
    | some d => atoiFast cs (n * 10 + d)

/-- Model of Go's `strconv.Atoi(s)` on a platform whose `int` has `intSize`
bits.  The result is the Go pair `(int, error)`.  Strings are read
as lists of characters: a character outside ASCII is encoded in bytes that are
all at least 0x80, so it is never a digit or a sign on either path. -/
def Atoi (intSize : IntSize) (str : String) : Int × Option NumError :=
  let s := str.toList
  let sLen := s.length
  if (intSize.bits = 32 ∧ 0 < sLen ∧ sLen < 10) ∨ (intSize.bits = 64 ∧ 0 < sLen ∧ sLen < 19) then
    match s with
    | [] => (0, some NumError.ErrSyn)
    | c0 :: rest =>
      let body := if c0 == '-' ∨ c0 == '+' then rest else s
      if (c0 == '-' ∨ c0 == '+') ∧ body.length < 1 then (0, some NumError.ErrSyn)
      else
        match atoiFast body 0 with
        | none => (0, some NumError.ErrSyn)
        | some n => (if c0 == '-' then -(n : Int) else (n : Int), none)
  else ParseInt intSize s

/-! ## The request and the responses -/

/-- The parts of `*http.Request` that the handler reads: the route variables
that `mux.Vars(r)` returns and the parsed form behind `r.FormValue`. -/
structure Request where
  path : String
  vars : List (String × String)
  form : List (String × List String)
  deriving DecidableEq, Repr

/-- Go's `r.FormValue(key)`: the first value stored for `key`, or the empty
string when there is none. -/
def Request.FormValue (r : Request) (key : String) : String :=
  match r.form.lookup key with
  | some (v :: _) => v
  | _ => ""

/-- Go's `mux.Vars(r)[key]`: a map read, the empty string for a missing key. -/
def Request.muxVar (r : Request) (key : String) : String :=
  (r.vars.lookup key).getD ""

/-- Values of `response.Response` that the handler can return.  `SmartError` and
`SyncResponseETag` are the two constructors of package `response` that the
handler calls (always with a non-nil error in the first case); `external` is a
response value made by a collaborator, such as the one relayed from the member
that hosts the instance. -/
inductive Response (E V X : Type) where
  | SmartError (err : E)
  | SyncResponseETag (success : Bool) (metadata : V) (etag : V)
  | external (x : X)
  deriving DecidableEq, Repr

/-- One entry of the call log, written at each call site of the handler. -/
inductive Call where
  | urlInstanceTypeDetect
  | forwardedResponseIfInstanceIsRemote (projectName name : String)
  | LoadByProjectAndName (projectName name : String)
  | Render
  | RenderFull
  deriving DecidableEq, Repr

/-- Recognises a call of the instance loader, whatever its arguments. -/
def Call.isLoad : Call → Bool
  | Call.LoadByProjectAndName _ _ => true
  | _ => false

/-- The collaborators of `instanceGet`.  `W` is the world (daemon state,
database, cluster), `E` the non-nil Go errors, `V` the `interface{}` values that
renders return, `T` is `instancetype.Type`, `I` is `instance.Instance`, `X` the
response values made outside the handler.  `intSize` is the width of Go's `int`
on the platform. -/
structure Env (W E V T I X : Type) where
  intSize : IntSize
  urlInstanceTypeDetect : Request → W → T × Option E × W
  projectParam : Request → String
  forwardedResponseIfInstanceIsRemote :
    Request → String → String → T → W → Option (Response E V X) × Option E × W
  LoadByProjectAndName : String → String → W → I × Option E × W
  Render : I → W → V × V × Option E × W
  RenderFull : I → W → V × V × Option E × W

/-- What a run of the handler leaves behind: the response it returns, the log
of collaborator calls in program order, and the final world. -/
structure Outcome (W E V X : Type) where
  resp : Response E V X
  calls : List Call
  world : W

variable {W E V T I X : Type}

/-- The handler `instanceGet(d, r)` of `lxd/instance_get.go`.  The daemon `d`
is part of the world `w0`: every collaborator that receives `d` or `d.State()`
receives the current world. -/
def instanceGet (env : Env W E V T I X) (r : Request) (w0 : W) : Outcome W E V X :=
  match env.urlInstanceTypeDetect r w0 with
  | (_, some err, w1) => ⟨Response.SmartError err, [Call.urlInstanceTypeDetect], w1⟩
  | (instanceType, none, w1) =>
    let projectName := env.projectParam r
    let name := r.muxVar "name"
    -- Parse the recursion field
    let recursionStr := r.FormValue "recursion"
    let recursion : Int :=
      match Atoi env.intSize recursionStr with
      | (_, some _) => 0
      | (n, none) => n
    -- Handle requests targeted to a container on a different node
    let log2 := [Call.urlInstanceTypeDetect,
      Call.forwardedResponseIfInstanceIsRemote projectName name]
    match env.forwardedResponseIfInstanceIsRemote r projectName name instanceType w1 with
    | (_, some err, w2) => ⟨Response.SmartError err, log2, w2⟩
    | (some resp, none, w2) => ⟨resp, log2, w2⟩
    | (none, none, w2) =>
      let log3 := log2 ++ [Call.LoadByProjectAndName projectName name]
      match env.LoadByProjectAndName projectName name w2 with
      | (_, some err, w3) => ⟨Response.SmartError err, log3, w3⟩
      | (c, none, w3) =>
        let rendered :=
          if recursion = 0 then (env.Render c w3, Call.Render)
          else (env.RenderFull c w3, Call.RenderFull)
        match rendered with
        | ((_, _, some err, w4), call) => ⟨Response.SmartError err, log3 ++ [call], w4⟩
        | ((state, etag, none, w4), call) =>
          ⟨Response.SyncResponseETag true state etag, log3 ++ [call], w4⟩

/-- Number of loader calls in the log. -/
def Outcome.loads (o : Outcome W E V X) : Nat := o.calls.countP Call.isLoad

/-- Number of calls of the basic `Render` in the log. -/
def Outcome.renders (o : Outcome W E V X) : Nat := o.calls.count Call.Render

/-- Number of calls of `RenderFull` in the log. -/
def Outcome.fullRenders (o : Outcome W E V X) : Nat := o.calls.count Call.RenderFull

/-- Two requests look the same to every collaborator that receives the request
itself: type detection, the project parameter, the route variable `name` and
the forwarding check answer alike on both. -/
def SameCollaboratorView (env : Env W E V T I X) (r r0 : Request) : Prop :=
  (∀ w, env.urlInstanceTypeDetect r w = env.urlInstanceTypeDetect r0 w) ∧
  env.projectParam r = env.projectParam r0 ∧
  r.muxVar "name" = r0.muxVar "name" ∧
  (∀ p n t w, env.forwardedResponseIfInstanceIsRemote r p n t w
    = env.forwardedResponseIfInstanceIsRemote r0 p n t w)

/-! ## Decimal integers, as the specification words them -/

/-- Every character is one of `0` to `9`. -/
def allDigits (cs : List Char) : Bool :=
  cs.all fun c => decide ('0' ≤ c ∧ c ≤ '9')

/-- A non-empty run of the characters `0` to `9`. -/
def isDecimal (cs : List Char) : Bool :=
  !cs.isEmpty && allDigits cs

/-- Reading one more digit `c` after the number `n`. -/
def decStep (n : Nat) (c : Char) : Nat :=
  10 * n + (c.toNat - '0'.toNat)

/-- The number that a run of decimal digits denotes. -/
def decimalValue (cs : List Char) : Nat :=
  cs.foldl decStep 0

/-- The integer that a sign flag and a run of digits denote. -/
def signedValue (neg : Bool) (body : List Char) : Int :=
  if neg then -(decimalValue body : Int) else (decimalValue body : Int)

/-- The integer that a string denotes in base 10: an optional sign `+` or `-`
followed by a non-empty run of digits; `none` for any other string. -/
def decimalIntChars (s : List Char) : Option Int :=
  match s with
  | [] => none
  | c :: cs =>
    if c = '-' then (if isDecimal cs then some (-(decimalValue cs : Int)) else none)
    else if c = '+' then (if isDecimal cs then some (decimalValue cs : Int) else none)
    else if isDecimal (c :: cs) then some (decimalValue (c :: cs) : Int) else none

/-- The integer that a string denotes in base 10, if it denotes one. -/
def decimalInt (s : String) : Option Int :=
  decimalIntChars s.toList

/-- The integer `v` fits a two's complement `int` of the given width. -/
def fitsInt (intSize : IntSize) (v : Int) : Prop :=
  -(2 ^ (intSize.bits - 1) : Int) ≤ v ∧ v ≤ 2 ^ (intSize.bits - 1) - 1

instance (intSize : IntSize) (v : Int) : Decidable (fitsInt intSize v) := by
  unfold fitsInt
  infer_instance

/-- The string is a valid base-10 integer that fits an `int`. -/
def validInt (intSize : IntSize) (s : String) : Prop :=
  ∃ v, decimalInt s = some v ∧ fitsInt intSize v

instance (intSize : IntSize) (s : String) : Decidable (validInt intSize s) :=
  match h : decimalInt s with
  | none => isFalse (by
      rintro ⟨v, hv, _⟩
      rw [h] at hv
      cases hv)
  | some v =>
    if hfit : fitsInt intSize v then isTrue ⟨v, h, hfit⟩
    else isFalse (by
      rintro ⟨v2, hv2, hfit2⟩
      rw [h] at hv2
      cases hv2
      exact hfit hfit2)

/-! ## The interface `NetworkZone` -/

namespace Zone

/-- One method of a Go interface declaration: the comment heading it stands
under, its name, its parameters (name and type) and its result types. -/
structure Method where
  heading : String
  name : String
  params : List (String × String)
  results : List String
  deriving DecidableEq, Repr

/-- The interface `NetworkZone` of `lxd/network/zone/interface.go`, method by
method in source order. -/
def NetworkZone : List Method :=
  [ ⟨"Initialise.", "init",
      [("state", "*state.State"), ("id", "int64"), ("projectName", "string"),
       ("zoneInfo", "*api.NetworkZone")], []⟩,
    ⟨"Info.", "ID", [], ["int64"]⟩,
    ⟨"Info.", "Project", [], ["string"]⟩,
    ⟨"Info.", "Info", [], ["*api.NetworkZone"]⟩,
    ⟨"Info.", "Etag", [], ["[]interface\x7b\x7d"]⟩,
    ⟨"Info.", "UsedBy", [], ["[]string", "error"]⟩,
    ⟨"Info.", "Content", [], ["*strings.Builder", "error"]⟩,
    ⟨"Internal validation.", "validateName", [("name", "string")], ["error"]⟩,
    ⟨"Internal validation.", "validateConfig", [("config", "*api.NetworkZonePut")], ["error"]⟩,
    ⟨"Modifications.", "Update",
      [("config", "*api.NetworkZonePut"), ("clientType", "request.ClientType")], ["error"]⟩,
    ⟨"Modifications.", "Delete", [], ["error"]⟩ ]

/-- The method takes the client type as one of its arguments. -/
def Method.carriesClientType (m : Method) : Bool :=
  m.params.any fun p => p.2 == "request.ClientType"

/-- The methods declared under the heading `Modifications.`: the mutating
operations of the interface. -/
def mutating : List Method :=
  NetworkZone.filter fun m => m.heading == "Modifications."

/-- Modelled from the spec: the error classes of section 7 that a zone driver
hands back; the driver implementation is not among the sources. -/
inductive DriverError where
  | NotFound
  | Conflict
  | InternalError
  deriving DecidableEq, Repr

/-- Modelled from the spec: the in-memory handle of section 4.3 that `init`
binds to a persisted record (identity and project; the implementation of the
interface is not among the sources). -/
structure Handle where
  id : Int
  projectName : String
  name : String
  deriving DecidableEq, Repr

/-- Modelled from the spec: the shared mutable state of section 5, owned by the
persistence layer: the persisted zone records and the UsedBy reverse index,
which is `none` while the index is unavailable. -/
structure Store where
  zones : List Handle
  usedByIndex : Option (List (Int × List String))
  deriving DecidableEq, Repr

/-- Modelled from the spec: `usedBy()` of section 4.3, absent from the sources:
"enumerates referencing resource identifiers; fails if the reverse index is
unavailable (treated as an infrastructure error, not empty)". -/
def UsedBy (st : Store) (z : Handle) : Except DriverError (List String) :=
  match st.usedByIndex with
  | none => Except.error DriverError.InternalError
  | some idx => Except.ok ((idx.lookup z.id).getD [])

/-- Modelled from the spec: `delete()` of section 4.3, absent from the sources:
"fails with a Conflict-class error if usedBy() is non-empty; otherwise removes
the persisted record".  A failure of `usedBy()` is not read as empty and is
handed on. -/
def Delete (st : Store) (z : Handle) : Except DriverError Store :=
  match UsedBy st z with
  | Except.error e => Except.error e
  | Except.ok (_ :: _) => Except.error DriverError.Conflict
  | Except.ok [] => Except.ok { st with zones := st.zones.filter fun h => h.id ≠ z.id }

/-- Modelled from the spec: the loader of section 4.2 for zones, absent from the
sources: the record bound to (project, name), or NotFound. -/
def Load (st : Store) (projectName name : String) : Except DriverError Handle :=
  match st.zones.find? fun h => h.projectName == projectName && h.name == name with
  | some h => Except.ok h
  | none => Except.error DriverError.NotFound

end Zone

/-! ## Sample inputs -/

/-- A sample member: type detection succeeds, the forwarding check answers
`fwd`, the loader answers with error `load`, and the two renders answer `basic`
and `full`.  The world counts the collaborator calls made so far. -/
def sampleEnv (fwd : Option (Response String String String) × Option String)
    (load : Option String) (basic full : String × String × Option String) :
    Env Nat String String String String String where
  intSize := IntSize.w64
  urlInstanceTypeDetect := fun _ w => ("container", none, w + 1)
  projectParam := fun r => if r.FormValue "project" = "" then "default" else r.FormValue "project"
  forwardedResponseIfInstanceIsRemote := fun _ _ _ _ w => (fwd.1, fwd.2, w + 1)
  LoadByProjectAndName := fun p n w => (p ++ "/" ++ n, load, w + 1)
  Render := fun _ w => (basic.1, basic.2.1, basic.2.2, w + 1)
  RenderFull := fun _ w => (full.1, full.2.1, full.2.2, w + 1)

/-- A member on which `web1` is hosted elsewhere: the forwarding check relays
the answer of `node2`. -/
def remoteEnv : Env Nat String String String String String :=
  sampleEnv (some (Response.external "node2: Running"), none) none
    ("basic", "etag0", none) ("full", "etag1", none)

/-- A member whose forwarding check fails, with a response next to the error. -/
def unreachableEnv : Env Nat String String String String String :=
  sampleEnv (some (Response.external "stale"), some "unreachable") none
    ("basic", "etag0", none) ("full", "etag1", none)

/-- A member that hosts `web1` itself; both renders succeed. -/
def localEnv : Env Nat String String String String String :=
  sampleEnv (none, none) none ("basic", "etag0", none) ("full", "etag1", none)

/-- A member on which the loader fails. -/
def notFoundEnv : Env Nat String String String String String :=
  sampleEnv (none, none) (some "not found") ("basic", "etag0", none) ("full", "etag1", none)

/-- A member on which `RenderFull` fails and still hands back a state and an etag. -/
def brokenFullEnv : Env Nat String String String String String :=
  sampleEnv (none, none) none ("basic", "etag0", none)
    ("partial", "etag1", some "snapshots unavailable")

/-- The request `GET /1.0/instances/web1?project=default&recursion=<rec>`. -/
def sampleRequest (rec : String) : Request :=
  ⟨"/1.0/instances/web1", [("name", "web1")], [("project", ["default"]), ("recursion", [rec])]⟩

/-- The request `GET /1.0/instances/web1?project=default`, without recursion. -/
def plainRequest : Request :=
  ⟨"/1.0/instances/web1", [("name", "web1")], [("project", ["default"])]⟩

/-- The zone store of scenario 2: `example.com.` is referenced by `network/lan0`. -/
def sampleStore (refs : List String) : Zone.Store :=
  ⟨[⟨1, "default", "example.com."⟩, ⟨2, "default", "lab.example."⟩], some [(1, refs)]⟩

/-- The handle of the zone `example.com.`. -/
def sampleZone : Zone.Handle := ⟨1, "default", "example.com."⟩

/-! ## Properties of `strconv.Atoi` -/

/-- The digit test of the Go loops is the range test from `0` to `9`. -/
theorem digitVal_eq (c : Char) :
    digitVal c = if '0' ≤ c ∧ c ≤ '9' then some (c.toNat - '0'.toNat) else none := by
  have h : ('0' ≤ c ∧ c ≤ '9') ↔ (48 ≤ c.toNat ∧ c.toNat ≤ 57) := by
    simp only [Char.le_def, Char.toNat, UInt32.le_def]
    rfl
  have h0 : '0'.toNat = 48 := rfl
  unfold digitVal
  by_cases hc : 48 ≤ c.toNat ∧ c.toNat ≤ 57
  · rw [if_pos hc, if_pos (h.mpr hc), h0]
  · rw [if_neg hc, if_neg (fun hh => hc (h.mp hh))]

/-- A digit is worth at most nine. -/
theorem digitVal_le {c : Char} {d : Nat} (h : digitVal c = some d) : d ≤ 9 := by
  unfold digitVal at h
  split at h
  · cases h; omega
  · cases h

/-- A run of digits is a digit followed by a run of digits. -/
theorem allDigits_cons (c : Char) (cs : List Char) :
    allDigits (c :: cs) = true ↔
      (∃ d, digitVal c = some d ∧ d = c.toNat - '0'.toNat) ∧ allDigits cs = true := by
  unfold allDigits
  rw [digitVal_eq]
  by_cases hc : '0' ≤ c ∧ c ≤ '9'
  · simp [hc]
  · simp [hc]

/-- When the head is a digit, the run is all digits exactly when the tail is. -/
theorem allDigits_cons_of_digit {c : Char} {d : Nat} (hd : digitVal c = some d)
    (cs : List Char) :
    d = c.toNat - '0'.toNat ∧ (allDigits (c :: cs) = true ↔ allDigits cs = true) := by
  have hd2 : d = c.toNat - '0'.toNat := by
    rw [digitVal_eq] at hd
    split at hd
    · cases hd; rfl
    · cases hd
  refine ⟨hd2, ?_⟩
  rw [allDigits_cons]
  exact ⟨fun h => h.2, fun h => ⟨⟨d, hd, hd2⟩, h⟩⟩

/-- When the head is no digit, the run is not all digits. -/
theorem allDigits_cons_of_not_digit {c : Char} (hd : digitVal c = none) (cs : List Char) :
    allDigits (c :: cs) = false := by
  cases h : allDigits (c :: cs) with
  | false => rfl
  | true =>
    obtain ⟨⟨d, hd1, _⟩, _⟩ := (allDigits_cons c cs).mp h
    rw [hd] at hd1
    cases hd1

/-- The fast loop succeeds exactly on runs of digits, with the spec-side value. -/
theorem atoiFast_eq (cs : List Char) (n : Nat) :
    atoiFast cs n = if allDigits cs then some (cs.foldl decStep n) else none := by
  induction cs generalizing n with
  | nil => simp [atoiFast, allDigits]
  | cons c cs ih =>
    unfold atoiFast
    cases hd : digitVal c with
    | none => simp [allDigits_cons_of_not_digit hd]
    | some d =>
      obtain ⟨hd2, hiff⟩ := allDigits_cons_of_digit hd cs
      simp only
      rw [ih, List.foldl_cons, decStep, ← hd2, Nat.mul_comm]
      by_cases hcs : allDigits cs = true
      · rw [if_pos hcs, if_pos (hiff.mpr hcs)]
      · rw [if_neg hcs, if_neg (fun h => hcs (hiff.mp h))]

/-- The value fold never decreases its accumulator. -/
theorem le_foldl_decStep (cs : List Char) (n : Nat) : n ≤ cs.foldl decStep n := by
  induction cs generalizing n with
  | nil => simp
  | cons c cs ih =>
    rw [List.foldl_cons]
    have h := ih (decStep n c)
    have h2 : n ≤ decStep n c := by
      unfold decStep
      omega
    exact Nat.le_trans h2 h

/-- A run of `k` digits read after `n` stays below `(n + 1) * 10 ^ k`. -/
theorem foldl_decStep_lt (cs : List Char) (n : Nat) (h : allDigits cs = true) :
    cs.foldl decStep n < (n + 1) * 10 ^ cs.length := by
  induction cs generalizing n with
  | nil => simp
  | cons c cs ih =>
    obtain ⟨⟨d, hd, hd2⟩, hcs⟩ := (allDigits_cons c cs).mp h
    have h9 := digitVal_le hd
    rw [List.foldl_cons, List.length_cons]
    have h1 := ih (decStep n c) hcs
    have h2 : decStep n c + 1 ≤ (n + 1) * 10 := by
      unfold decStep
      omega
    calc cs.foldl decStep (decStep n c)
        < (decStep n c + 1) * 10 ^ cs.length := h1
      _ ≤ ((n + 1) * 10) * 10 ^ cs.length := Nat.mul_le_mul_right _ h2
      _ = (n + 1) * 10 ^ (cs.length + 1) := by ring

/-- One round of the `ParseUint` loop on a digit `d`, spelled out. -/
theorem parseUintLoop_cons_digit (maxVal : Nat) {c : Char} {d : Nat} (hd : digitVal c = some d)
    (cs : List Char) (n : Nat) :
    parseUintLoop maxVal (c :: cs) n =
      if n ≥ 1844674407370955162 then (maxVal, some NumError.ErrRange)
      else if (n * 10 + d) % 18446744073709551616 < n * 10 ∨
          (n * 10 + d) % 18446744073709551616 > maxVal then (maxVal, some NumError.ErrRange)
      else parseUintLoop maxVal cs ((n * 10 + d) % 18446744073709551616) := by
  rw [parseUintLoop, hd]
  simp only [maxUint64]
  norm_num

/-- On a run of digits whose value fits, the loop returns that value. -/
theorem parseUintLoop_fits (maxVal : Nat) (hmax : maxVal ≤ maxUint64) (cs : List Char) (n : Nat)
    (hall : allDigits cs = true) (hfit : cs.foldl decStep n ≤ maxVal) :
    parseUintLoop maxVal cs n = (cs.foldl decStep n, none) := by
  induction cs generalizing n with
  | nil => simp [parseUintLoop]
  | cons c cs ih =>
    obtain ⟨⟨d, hd, hd2⟩, hcs⟩ := (allDigits_cons c cs).mp hall
    have h9 := digitVal_le hd
    rw [List.foldl_cons] at hfit ⊢
    have hstep : decStep n c = n * 10 + d := by
      unfold decStep
      omega
    have hle := le_foldl_decStep cs (decStep n c)
    have hm : maxUint64 = 18446744073709551615 := by norm_num [maxUint64]
    rw [parseUintLoop_cons_digit maxVal hd]
    have hmod : (n * 10 + d) % 18446744073709551616 = n * 10 + d := by omega
    rw [hmod, if_neg (by omega), if_neg (by omega), ← hstep]
    exact ih _ hcs hfit

/-- On a run of digits whose value exceeds `maxVal`, the loop reports a range
error together with `maxVal`. -/
theorem parseUintLoop_overflow (maxVal : Nat) (cs : List Char)
    (n : Nat) (hall : allDigits cs = true) (hn : n ≤ maxVal)
    (hbig : maxVal < cs.foldl decStep n) :
    parseUintLoop maxVal cs n = (maxVal, some NumError.ErrRange) := by
  induction cs generalizing n with
  | nil =>
    simp at hbig
    omega
  | cons c cs ih =>
    obtain ⟨⟨d, hd, hd2⟩, hcs⟩ := (allDigits_cons c cs).mp hall
    have h9 := digitVal_le hd
    rw [List.foldl_cons] at hbig
    have hstep : decStep n c = n * 10 + d := by
      unfold decStep
      omega
    have hm : maxUint64 = 18446744073709551615 := by norm_num [maxUint64]
    rw [parseUintLoop_cons_digit maxVal hd]
    by_cases h1 : n ≥ 1844674407370955162
    · rw [if_pos h1]
    · rw [if_neg h1]
      by_cases h2 : (n * 10 + d) % 18446744073709551616 < n * 10 ∨
          (n * 10 + d) % 18446744073709551616 > maxVal
      · rw [if_pos h2]
      · rw [if_neg h2]
        have hmod : (n * 10 + d) % 18446744073709551616 = n * 10 + d := by omega
        rw [hmod] at h2 ⊢
        rw [← hstep] at h2 ⊢
        exact ih _ hcs (by omega) hbig

/-- A character that is no digit makes the loop fail. -/
theorem parseUintLoop_not_digits (maxVal : Nat) (cs : List Char) (n : Nat)
    (hall : allDigits cs = false) :
    (parseUintLoop maxVal cs n).2 ≠ none := by
  induction cs generalizing n with
  | nil => simp [allDigits] at hall
  | cons c cs ih =>
    cases hd : digitVal c with
    | none => simp [parseUintLoop, hd]
    | some d =>
      obtain ⟨_, hiff⟩ := allDigits_cons_of_digit hd cs
      have hcs : allDigits cs = false := by
        cases h : allDigits cs with
        | false => rfl
        | true => rw [hiff.mpr h] at hall; cases hall
      rw [parseUintLoop_cons_digit maxVal hd]
      split
      · simp
      · split
        · simp
        · exact ih _ hcs

/-- A range error of the loop always comes with `maxVal`. -/
theorem parseUintLoop_range (maxVal : Nat) (cs : List Char) (n : Nat)
    (h : (parseUintLoop maxVal cs n).2 = some NumError.ErrRange) :
    (parseUintLoop maxVal cs n).1 = maxVal := by
  induction cs generalizing n with
  | nil => simp [parseUintLoop] at h
  | cons c cs ih =>
    cases hd : digitVal c with
    | none => simp [parseUintLoop, hd] at h
    | some d =>
      rw [parseUintLoop_cons_digit maxVal hd] at h ⊢
      split
      · rfl
      · split
        · rfl
        · rename_i h1 h2
          rw [if_neg h1, if_neg h2] at h
          exact ih _ h
/-- The four ways `ParseUint` can end, against the spec-side reading of its input. -/
theorem ParseUint_cases (sz : IntSize) (body : List Char) :
    (isDecimal body = true ∧ decimalValue body ≤ 2 ^ sz.bits - 1 ∧
        ParseUint sz body = (decimalValue body, none)) ∨
    (isDecimal body = true ∧ 2 ^ sz.bits - 1 < decimalValue body ∧
        ParseUint sz body = (2 ^ sz.bits - 1, some NumError.ErrRange)) ∨
    (isDecimal body = false ∧ ∃ x, ParseUint sz body = (x, some NumError.ErrSyn)) ∨
    (isDecimal body = false ∧ ParseUint sz body = (2 ^ sz.bits - 1, some NumError.ErrRange)) := by
  cases body with
  | nil =>
    right; right; left
    exact ⟨rfl, 0, rfl⟩
  | cons c cs =>
    have hP : ParseUint sz (c :: cs) = parseUintLoop (2 ^ sz.bits - 1) (c :: cs) 0 := rfl
    have hdec : isDecimal (c :: cs) = allDigits (c :: cs) := by simp [isDecimal]
    have hmax : 2 ^ sz.bits - 1 ≤ maxUint64 := by
      cases sz <;> norm_num [IntSize.bits, maxUint64]
    rw [hP, hdec]
    cases hall : allDigits (c :: cs) with
    | true =>
      by_cases hfit : decimalValue (c :: cs) ≤ 2 ^ sz.bits - 1
      · left
        exact ⟨rfl, hfit, parseUintLoop_fits _ hmax _ 0 hall hfit⟩
      · right; left
        exact ⟨rfl, by omega,
          parseUintLoop_overflow _ _ 0 hall (Nat.zero_le _) (by unfold decimalValue at hfit; omega)⟩
    | false =>
      have hne := parseUintLoop_not_digits (2 ^ sz.bits - 1) (c :: cs) 0 hall
      cases hres : parseUintLoop (2 ^ sz.bits - 1) (c :: cs) 0 with
      | mk x e =>
        rw [hres] at hne
        cases e with
        | none => exact absurd rfl hne
        | some k =>
          cases k with
          | ErrSyn =>
            right; right; left
            exact ⟨rfl, x, rfl⟩
          | ErrRange =>
            right; right; right
            have hx := parseUintLoop_range (2 ^ sz.bits - 1) (c :: cs) 0 (by rw [hres])
            rw [hres] at hx
            simp only at hx
            rw [hx]
            exact ⟨rfl, rfl⟩

/-- Range check and sign of `ParseInt`, against the spec-side reading of the
body: the result is the signed value when the body is decimal and the value
fits, and an error otherwise. -/
theorem parseIntRange_ParseUint (sz : IntSize) (neg : Bool) (body : List Char) :
    (isDecimal body = true ∧ fitsInt sz (signedValue neg body) ∧
        parseIntRange sz neg (ParseUint sz body) = (signedValue neg body, none)) ∨
    (¬ (isDecimal body = true ∧ fitsInt sz (signedValue neg body)) ∧
        (parseIntRange sz neg (ParseUint sz body)).2 ≠ none) := by
  rcases ParseUint_cases sz body with ⟨hdec, hle, hP⟩ | ⟨hdec, hlt, hP⟩ | ⟨hdec, x, hP⟩ | ⟨hdec, hP⟩
  · rw [hP]
    by_cases hfit : fitsInt sz (signedValue neg body)
    · left
      refine ⟨hdec, hfit, ?_⟩
      cases sz <;> cases neg <;>
        simp [fitsInt, signedValue, IntSize.bits] at hfit ⊢ <;>
        simp [parseIntRange, IntSize.bits] <;> omega
    · right
      refine ⟨fun h => hfit h.2, ?_⟩
      cases sz <;> cases neg <;>
        simp [fitsInt, signedValue, IntSize.bits] at hfit ⊢ <;>
        simp [parseIntRange, IntSize.bits] <;> split <;> first | (simp; done) | (exfalso; omega)
  · rw [hP]
    right
    refine ⟨?_, ?_⟩
    · rintro ⟨_, hfit⟩
      cases sz <;> cases neg <;>
        simp [fitsInt, signedValue, IntSize.bits] at hfit hlt <;> omega
    · cases sz <;> cases neg <;> simp [parseIntRange, IntSize.bits]
  · rw [hP]
    right
    refine ⟨?_, ?_⟩
    · rw [hdec]; simp
    · simp [parseIntRange]
  · rw [hP]
    right
    refine ⟨?_, ?_⟩
    · rw [hdec]; simp
    · cases sz <;> cases neg <;> simp [parseIntRange, IntSize.bits]

/-- The unsigned body of a string after its optional sign. -/
theorem decimalIntChars_cons (c0 : Char) (rest : List Char) :
    decimalIntChars (c0 :: rest) =
      if isDecimal (if c0 == '+' ∨ c0 == '-' then rest else c0 :: rest) then
        some (signedValue (c0 == '-') (if c0 == '+' ∨ c0 == '-' then rest else c0 :: rest))
      else none := by
  by_cases h1 : c0 = '-'
  · subst h1
    simp [decimalIntChars, signedValue]
  · by_cases h2 : c0 = '+'
    · subst h2
      simp [decimalIntChars, signedValue]
    · simp [decimalIntChars, signedValue, h1, h2]

/-- `ParseInt` returns the integer a string denotes when it denotes one that
fits, and an error otherwise. -/
theorem ParseInt_spec (sz : IntSize) (s : List Char) :
    (∃ v, decimalIntChars s = some v ∧ fitsInt sz v ∧ ParseInt sz s = (v, none)) ∨
    ((∀ v, decimalIntChars s = some v → ¬ fitsInt sz v) ∧ (ParseInt sz s).2 ≠ none) := by
  cases s with
  | nil =>
    right
    simp [decimalIntChars, ParseInt]
  | cons c0 rest =>
    have hP : ParseInt sz (c0 :: rest) = parseIntRange sz (c0 == '-')
        (ParseUint sz (if c0 == '+' ∨ c0 == '-' then rest else c0 :: rest)) := rfl
    rw [hP, decimalIntChars_cons]
    rcases parseIntRange_ParseUint sz (c0 == '-')
        (if c0 == '+' ∨ c0 == '-' then rest else c0 :: rest) with ⟨hdec, hfit, hres⟩ | ⟨hno, hres⟩
    · left
      exact ⟨_, by rw [if_pos hdec], hfit, hres⟩
    · right
      refine ⟨?_, hres⟩
      intro v hv hfit
      by_cases hdec : isDecimal (if c0 == '+' ∨ c0 == '-' then rest else c0 :: rest) = true
      · rw [if_pos hdec] at hv
        cases hv
        exact hno ⟨hdec, hfit⟩
      · rw [if_neg hdec] at hv
        cases hv

/-- The fast path of `Atoi` returns the integer a short string denotes, which
always fits, and a syntax error on any other short string. -/
theorem Atoi_fast (sz : IntSize) (str : String)
    (hcond : (sz.bits = 32 ∧ 0 < str.toList.length ∧ str.toList.length < 10) ∨
      (sz.bits = 64 ∧ 0 < str.toList.length ∧ str.toList.length < 19)) :
    (∃ v, decimalInt str = some v ∧ fitsInt sz v ∧ Atoi sz str = (v, none)) ∨
    (decimalInt str = none ∧ (Atoi sz str).2 ≠ none) := by
  rcases str with ⟨l⟩
  have hl : (String.mk l).toList = l := rfl
  unfold Atoi decimalInt
  simp only [hl] at hcond ⊢
  rw [if_pos hcond]
  cases l with
  | nil => simp at hcond
  | cons c0 rest =>
    rw [decimalIntChars_cons]
    simp only
    have hbody : (if c0 == '-' ∨ c0 == '+' then rest else c0 :: rest)
        = (if c0 == '+' ∨ c0 == '-' then rest else c0 :: rest) := by
      by_cases h : c0 == '+' ∨ c0 == '-'
      · rw [if_pos h, if_pos (Or.symm h)]
      · rw [if_neg h, if_neg (fun h2 => h (Or.symm h2))]
    rw [hbody]
    generalize hb : (if c0 == '+' ∨ c0 == '-' then rest else c0 :: rest) = body
    have hlen : body.length ≤ (c0 :: rest).length := by
      rw [← hb]
      split <;> simp
    have hempty : body = [] → (c0 == '-' ∨ c0 == '+') := by
      intro he
      rw [← hb] at he
      by_cases h : c0 == '+' ∨ c0 == '-'
      · exact Or.symm h
      · rw [if_neg h] at he
        cases he
    rw [atoiFast_eq]
    by_cases hdec : isDecimal body = true
    · left
      have hne : body ≠ [] := by
        intro he
        rw [he] at hdec
        simp [isDecimal] at hdec
      have hall : allDigits body = true := by
        simp [isDecimal] at hdec
        exact hdec.2
      have hpos : ¬ body.length < 1 := by
        cases body with
        | nil => exact absurd rfl hne
        | cons _ _ => simp
      have hlt := foldl_decStep_lt body 0 hall
      rw [if_pos hdec, if_pos hall, if_neg (fun h => hpos h.2)]
      refine ⟨_, rfl, ?_, ?_⟩
      · have hval : decimalValue body = body.foldl decStep 0 := rfl
        rcases hcond with ⟨hb32, _, hL⟩ | ⟨hb64, _, hL⟩
        · have hpow : 10 ^ body.length ≤ 10 ^ 9 :=
            Nat.pow_le_pow_right (by norm_num) (by omega)
          unfold fitsInt signedValue
          rw [hb32, hval]
          cases (c0 == '-') <;> simp <;> omega
        · have hpow : 10 ^ body.length ≤ 10 ^ 18 :=
            Nat.pow_le_pow_right (by norm_num) (by omega)
          unfold fitsInt signedValue
          rw [hb64, hval]
          cases (c0 == '-') <;> simp <;> omega
      · simp [signedValue, decimalValue]
    · right
      rw [if_neg hdec]
      refine ⟨rfl, ?_⟩
      by_cases he : body = []
      · have hsign := hempty he
        rw [he, if_pos ⟨hsign, by simp⟩]
        simp
      · have hall : allDigits body = false := by
          cases h : allDigits body with
          | false => rfl
          | true =>
            exfalso
            apply hdec
            cases body with
            | nil => exact absurd rfl he
            | cons _ _ => simpa [isDecimal] using h
        rw [hall]
        split <;> simp

/-- `strconv.Atoi` returns the integer a string denotes when it denotes one that
fits an `int`, and an error on every other string. -/
theorem Atoi_spec (sz : IntSize) (str : String) :
    (∃ v, decimalInt str = some v ∧ fitsInt sz v ∧ Atoi sz str = (v, none)) ∨
    ((∀ v, decimalInt str = some v → ¬ fitsInt sz v) ∧ (Atoi sz str).2 ≠ none) := by
  by_cases hcond : (sz.bits = 32 ∧ 0 < str.toList.length ∧ str.toList.length < 10) ∨
      (sz.bits = 64 ∧ 0 < str.toList.length ∧ str.toList.length < 19)
  · rcases Atoi_fast sz str hcond with h | ⟨hnone, herr⟩
    · exact Or.inl h
    · right
      refine ⟨?_, herr⟩
      intro v hv
      rw [hnone] at hv
      cases hv
  · have hA : Atoi sz str = ParseInt sz str.toList := by
      unfold Atoi
      simp only
      rw [if_neg hcond]
    rw [hA]
    exact ParseInt_spec sz str.toList

/-- A valid decimal integer that fits is parsed to its value, without error. -/
theorem Atoi_of_valid (sz : IntSize) (str : String) (v : Int)
    (hv : decimalInt str = some v) (hfit : fitsInt sz v) : Atoi sz str = (v, none) := by
  rcases Atoi_spec sz str with ⟨v2, hv2, _, hA⟩ | ⟨hno, _⟩
  · rw [hv] at hv2
    cases hv2
    exact hA
  · exact absurd hfit (hno v hv)

/-- `Atoi` fails exactly on the strings that are no valid decimal integer
fitting an `int`. -/
theorem Atoi_error_iff (sz : IntSize) (str : String) :
    (Atoi sz str).2 ≠ none ↔ ¬ validInt sz str := by
  unfold validInt
  rcases Atoi_spec sz str with ⟨v, hv, hfit, hA⟩ | ⟨hno, herr⟩
  · rw [hA]
    constructor
    · intro h
      exact absurd rfl h
    · intro h
      exact absurd ⟨v, hv, hfit⟩ h
  · constructor
    · rintro _ ⟨v, hv, hfit⟩
      exact hno v hv hfit
    · intro _
      exact herr

/-- When `Atoi` reports no error, its value is the integer the string denotes. -/
theorem Atoi_value (sz : IntSize) (str : String) (n : Int)
    (h : Atoi sz str = (n, none)) : decimalInt str = some n ∧ fitsInt sz n := by
  rcases Atoi_spec sz str with ⟨v, hv, hfit, hA⟩ | ⟨_, herr⟩
  · rw [hA] at h
    cases h
    exact ⟨hv, hfit⟩
  · rw [h] at herr
    exact absurd rfl herr

/-! ## Paths through `instanceGet` -/

/-- The run stops after the forwarding check when that check hands back an
error, whatever response came with it. -/
theorem instanceGet_of_forward_error (env : Env W E V T I X) (r : Request) (w0 w1 w2 : W)
    (t : T) (ro : Option (Response E V X)) (e : E)
    (hd : env.urlInstanceTypeDetect r w0 = (t, none, w1))
    (hf : env.forwardedResponseIfInstanceIsRemote r (env.projectParam r) (r.muxVar "name") t w1
      = (ro, some e, w2)) :
    instanceGet env r w0 = ⟨Response.SmartError e, [Call.urlInstanceTypeDetect,
      Call.forwardedResponseIfInstanceIsRemote (env.projectParam r) (r.muxVar "name")], w2⟩ := by
  simp [instanceGet, hd, hf]

/-- The run stops after the forwarding check when that check hands back a
response and no error. -/
theorem instanceGet_of_forwarded (env : Env W E V T I X) (r : Request) (w0 w1 w2 : W)
    (t : T) (resp : Response E V X)
    (hd : env.urlInstanceTypeDetect r w0 = (t, none, w1))
    (hf : env.forwardedResponseIfInstanceIsRemote r (env.projectParam r) (r.muxVar "name") t w1
      = (some resp, none, w2)) :
    instanceGet env r w0 = ⟨resp, [Call.urlInstanceTypeDetect,
      Call.forwardedResponseIfInstanceIsRemote (env.projectParam r) (r.muxVar "name")], w2⟩ := by
  simp [instanceGet, hd, hf]

/-- The run stops after the loader when the loader fails. -/
theorem instanceGet_of_load_error (env : Env W E V T I X) (r : Request) (w0 w1 w2 w3 : W)
    (t : T) (c : I) (e : E)
    (hd : env.urlInstanceTypeDetect r w0 = (t, none, w1))
    (hf : env.forwardedResponseIfInstanceIsRemote r (env.projectParam r) (r.muxVar "name") t w1
      = (none, none, w2))
    (hl : env.LoadByProjectAndName (env.projectParam r) (r.muxVar "name") w2 = (c, some e, w3)) :
    instanceGet env r w0 = ⟨Response.SmartError e, [Call.urlInstanceTypeDetect,
      Call.forwardedResponseIfInstanceIsRemote (env.projectParam r) (r.muxVar "name"),
      Call.LoadByProjectAndName (env.projectParam r) (r.muxVar "name")], w3⟩ := by
  simp [instanceGet, hd, hf, hl]

/-- The local path with the basic view: the recursion value failed to parse or
parsed to zero. -/
theorem instanceGet_local_basic (env : Env W E V T I X) (r : Request) (w0 w1 w2 w3 w4 : W)
    (t : T) (c : I) (n : Int) (aerr : Option NumError) (st et : V) (rerr : Option E)
    (hd : env.urlInstanceTypeDetect r w0 = (t, none, w1))
    (hf : env.forwardedResponseIfInstanceIsRemote r (env.projectParam r) (r.muxVar "name") t w1
      = (none, none, w2))
    (hl : env.LoadByProjectAndName (env.projectParam r) (r.muxVar "name") w2 = (c, none, w3))
    (hA : Atoi env.intSize (r.FormValue "recursion") = (n, aerr))
    (hrec : aerr ≠ none ∨ n = 0)
    (hR : env.Render c w3 = (st, et, rerr, w4)) :
    instanceGet env r w0 =
      ⟨rerr.elim (Response.SyncResponseETag true st et) Response.SmartError,
       [Call.urlInstanceTypeDetect,
        Call.forwardedResponseIfInstanceIsRemote (env.projectParam r) (r.muxVar "name"),
        Call.LoadByProjectAndName (env.projectParam r) (r.muxVar "name"), Call.Render], w4⟩ := by
  cases aerr with
  | some k => cases rerr <;> simp [instanceGet, hd, hf, hl, hA, hR]
  | none =>
    have hn : n = 0 := by
      rcases hrec with h | h
      · exact absurd rfl h
      · exact h
    cases rerr <;> simp [instanceGet, hd, hf, hl, hA, hR, hn]

/-- The local path with the full view: the recursion value parsed to an integer
other than zero. -/
theorem instanceGet_local_full (env : Env W E V T I X) (r : Request) (w0 w1 w2 w3 w4 : W)
    (t : T) (c : I) (n : Int) (st et : V) (rerr : Option E)
    (hd : env.urlInstanceTypeDetect r w0 = (t, none, w1))
    (hf : env.forwardedResponseIfInstanceIsRemote r (env.projectParam r) (r.muxVar "name") t w1
      = (none, none, w2))
    (hl : env.LoadByProjectAndName (env.projectParam r) (r.muxVar "name") w2 = (c, none, w3))
    (hA : Atoi env.intSize (r.FormValue "recursion") = (n, none))
    (hrec : n ≠ 0)
    (hR : env.RenderFull c w3 = (st, et, rerr, w4)) :
    instanceGet env r w0 =
      ⟨rerr.elim (Response.SyncResponseETag true st et) Response.SmartError,
       [Call.urlInstanceTypeDetect,
        Call.forwardedResponseIfInstanceIsRemote (env.projectParam r) (r.muxVar "name"),
        Call.LoadByProjectAndName (env.projectParam r) (r.muxVar "name"), Call.RenderFull],
       w4⟩ := by
  cases rerr <;> simp [instanceGet, hd, hf, hl, hA, hR, hrec]

/-- The string `0` parses to zero on either platform. -/
theorem Atoi_zero (sz : IntSize) : Atoi sz "0" = (0, none) := by
  cases sz <;> decide

/-- The string `1` parses to one on either platform. -/
theorem Atoi_one (sz : IntSize) : Atoi sz "1" = (1, none) := by
  cases sz <;> decide

/-! ## The claims about `instanceGet` -/

/-- C1: when type detection succeeds and the forwarding check hands back a
response with a nil error, `instanceGet` returns exactly that response and the
call log holds no loader call, no `Render` and no `RenderFull`. -/
theorem instanceGet_relays_forwarded_response (env : Env W E V T I X) (r : Request)
    (w0 w1 w2 : W) (t : T) (resp : Response E V X)
    (hd : env.urlInstanceTypeDetect r w0 = (t, none, w1))
    (hf : env.forwardedResponseIfInstanceIsRemote r (env.projectParam r) (r.muxVar "name") t w1
      = (some resp, none, w2)) :
    (instanceGet env r w0).resp = resp ∧
    (instanceGet env r w0).loads = 0 ∧
    (instanceGet env r w0).renders = 0 ∧
    (instanceGet env r w0).fullRenders = 0 := by
  rw [instanceGet_of_forwarded env r w0 w1 w2 t resp hd hf]
  simp [Outcome.loads, Outcome.renders, Outcome.fullRenders, Call.isLoad]

/-- C2: when the forwarding check hands back an error, `instanceGet` returns
`SmartError` of that same error, whatever response came with it, and the call
log holds no loader call, no `Render` and no `RenderFull`. -/
theorem instanceGet_forward_error_not_local (env : Env W E V T I X) (r : Request)
    (w0 w1 w2 : W) (t : T) (ro : Option (Response E V X)) (e : E)
    (hd : env.urlInstanceTypeDetect r w0 = (t, none, w1))
    (hf : env.forwardedResponseIfInstanceIsRemote r (env.projectParam r) (r.muxVar "name") t w1
      = (ro, some e, w2)) :
    (instanceGet env r w0).resp = Response.SmartError e ∧
    (instanceGet env r w0).loads = 0 ∧
    (instanceGet env r w0).renders = 0 ∧
    (instanceGet env r w0).fullRenders = 0 := by
  rw [instanceGet_of_forward_error env r w0 w1 w2 t ro e hd hf]
  simp [Outcome.loads, Outcome.renders, Outcome.fullRenders, Call.isLoad]

/-- Witness of C1: `web1` is hosted on `node2`; the answer of `node2` comes back
as it is and nothing is loaded or rendered here. -/
theorem instanceGet_relays_forwarded_response_witness :
    remoteEnv.urlInstanceTypeDetect (sampleRequest "1") 0 = ("container", none, 1) ∧
    remoteEnv.forwardedResponseIfInstanceIsRemote (sampleRequest "1")
      (remoteEnv.projectParam (sampleRequest "1")) ((sampleRequest "1").muxVar "name")
      "container" 1 = (some (Response.external "node2: Running"), none, 2) ∧
    (instanceGet remoteEnv (sampleRequest "1") 0).resp = Response.external "node2: Running" ∧
    (instanceGet remoteEnv (sampleRequest "1") 0).loads = 0 ∧
    (instanceGet remoteEnv (sampleRequest "1") 0).renders = 0 ∧
    (instanceGet remoteEnv (sampleRequest "1") 0).fullRenders = 0 :=
  ⟨rfl, rfl,
    instanceGet_relays_forwarded_response remoteEnv (sampleRequest "1") 0 1 2 "container"
      (Response.external "node2: Running") rfl rfl⟩

/-- Witness of C2: the forwarding check fails with `unreachable` while also
handing back a response; the error response wins and nothing is loaded. -/
theorem instanceGet_forward_error_not_local_witness :
    unreachableEnv.urlInstanceTypeDetect (sampleRequest "0") 0 = ("container", none, 1) ∧
    unreachableEnv.forwardedResponseIfInstanceIsRemote (sampleRequest "0")
      (unreachableEnv.projectParam (sampleRequest "0")) ((sampleRequest "0").muxVar "name")
      "container" 1 = (some (Response.external "stale"), some "unreachable", 2) ∧
    (instanceGet unreachableEnv (sampleRequest "0") 0).resp = Response.SmartError "unreachable" ∧
    (instanceGet unreachableEnv (sampleRequest "0") 0).loads = 0 ∧
    (instanceGet unreachableEnv (sampleRequest "0") 0).renders = 0 ∧
    (instanceGet unreachableEnv (sampleRequest "0") 0).fullRenders = 0 :=
  ⟨rfl, rfl,
    instanceGet_forward_error_not_local unreachableEnv (sampleRequest "0") 0 1 2 "container"
      (some (Response.external "stale")) "unreachable" rfl rfl⟩

/-- C3: a recursion value that is no valid base-10 integer fitting an `int`
(among them the absent or empty value, `abc`, `1.0` and
`99999999999999999999`) is handled as recursion 0.  The run equals the run on
any request that carries recursion `0` and looks the same to the collaborators,
so the request is not rejected for its recursion value; and on the local path
the basic `Render` is called once and `RenderFull` is never called. -/
theorem instanceGet_unparsable_recursion_is_zero (env : Env W E V T I X) (r r0 : Request)
    (w0 : W)
    (hbad : ¬ validInt env.intSize (r.FormValue "recursion") ∨
      r.FormValue "recursion" ∈ ["", "abc", "1.0", "99999999999999999999"])
    (h0 : r0.FormValue "recursion" = "0")
    (hsame : SameCollaboratorView env r r0) :
    instanceGet env r w0 = instanceGet env r0 w0 ∧
    (∀ (w1 w2 w3 : W) (t : T) (c : I),
      env.urlInstanceTypeDetect r w0 = (t, none, w1) →
      env.forwardedResponseIfInstanceIsRemote r (env.projectParam r) (r.muxVar "name") t w1
        = (none, none, w2) →
      env.LoadByProjectAndName (env.projectParam r) (r.muxVar "name") w2 = (c, none, w3) →
      (instanceGet env r w0).renders = 1 ∧ (instanceGet env r w0).fullRenders = 0) := by
  have hinvalid : ¬ validInt env.intSize (r.FormValue "recursion") := by
    rcases hbad with h | h
    · exact h
    · generalize r.FormValue "recursion" = s at h
      simp only [List.mem_cons, List.mem_singleton, List.not_mem_nil, or_false] at h
      rcases h with h | h | h | h <;> subst h <;> cases env.intSize <;> decide
  have herr := (Atoi_error_iff env.intSize (r.FormValue "recursion")).mpr hinvalid
  obtain ⟨n, aerr, hA⟩ : ∃ n aerr, Atoi env.intSize (r.FormValue "recursion") = (n, aerr) :=
    ⟨_, _, rfl⟩
  rw [hA] at herr
  constructor
  · obtain ⟨hdet, hproj, hname, hfwd⟩ := hsame
    cases aerr with
    | none => exact absurd rfl herr
    | some k =>
      unfold instanceGet
      simp only [hdet, hproj, hname, hfwd, h0, hA, Atoi_zero]
  · intro w1 w2 w3 t c hd hf hl
    obtain ⟨st, et, rerr, w4, hR⟩ : ∃ st et rerr w4, env.Render c w3 = (st, et, rerr, w4) :=
      ⟨_, _, _, _, rfl⟩
    rw [instanceGet_local_basic env r w0 w1 w2 w3 w4 t c n aerr st et rerr hd hf hl hA
      (Or.inl herr) hR]
    simp [Outcome.renders, Outcome.fullRenders]

/-- Witness of C3: a request without any recursion value on a member that
hosts the instance runs exactly as the same request with recursion `0`. -/
theorem instanceGet_unparsable_recursion_is_zero_witness :
    (¬ validInt localEnv.intSize (plainRequest.FormValue "recursion") ∨
      plainRequest.FormValue "recursion" ∈ ["", "abc", "1.0", "99999999999999999999"]) ∧
    (sampleRequest "0").FormValue "recursion" = "0" ∧
    SameCollaboratorView localEnv plainRequest (sampleRequest "0") ∧
    instanceGet localEnv plainRequest 0 = instanceGet localEnv (sampleRequest "0") 0 ∧
    (instanceGet localEnv plainRequest 0).renders = 1 ∧
    (instanceGet localEnv plainRequest 0).fullRenders = 0 := by
  have hbad : ¬ validInt localEnv.intSize (plainRequest.FormValue "recursion") ∨
      plainRequest.FormValue "recursion" ∈ ["", "abc", "1.0", "99999999999999999999"] :=
    Or.inl (by decide)
  have h0 : (sampleRequest "0").FormValue "recursion" = "0" := rfl
  have hsame : SameCollaboratorView localEnv plainRequest (sampleRequest "0") :=
    ⟨fun _ => rfl, rfl, rfl, fun _ _ _ _ => rfl⟩
  have h := instanceGet_unparsable_recursion_is_zero localEnv plainRequest (sampleRequest "0") 0
    hbad h0 hsame
  exact ⟨hbad, h0, hsame, h.1, h.2 1 2 3 "container" "default/web1" rfl rfl rfl⟩

/-- C4: on the local path (the forwarding check returned nil, nil and the load
succeeded) recursion `1` calls `RenderFull` exactly once and `Render` not at
all, and recursion `0` calls `Render` exactly once and `RenderFull` not at all. -/
theorem instanceGet_recursion_selects_view (env : Env W E V T I X) (r : Request)
    (w0 w1 w2 w3 : W) (t : T) (c : I)
    (hd : env.urlInstanceTypeDetect r w0 = (t, none, w1))
    (hf : env.forwardedResponseIfInstanceIsRemote r (env.projectParam r) (r.muxVar "name") t w1
      = (none, none, w2))
    (hl : env.LoadByProjectAndName (env.projectParam r) (r.muxVar "name") w2 = (c, none, w3)) :
    (r.FormValue "recursion" = "1" →
      (instanceGet env r w0).fullRenders = 1 ∧ (instanceGet env r w0).renders = 0) ∧
    (r.FormValue "recursion" = "0" →
      (instanceGet env r w0).renders = 1 ∧ (instanceGet env r w0).fullRenders = 0) := by
  constructor
  · intro h1
    obtain ⟨st, et, rerr, w4, hR⟩ :
        ∃ st et rerr w4, env.RenderFull c w3 = (st, et, rerr, w4) := ⟨_, _, _, _, rfl⟩
    have hA : Atoi env.intSize (r.FormValue "recursion") = (1, none) := by
      rw [h1]
      exact Atoi_one env.intSize
    rw [instanceGet_local_full env r w0 w1 w2 w3 w4 t c 1 st et rerr hd hf hl hA (by decide) hR]
    simp [Outcome.renders, Outcome.fullRenders]
  · intro h0
    obtain ⟨st, et, rerr, w4, hR⟩ :
        ∃ st et rerr w4, env.Render c w3 = (st, et, rerr, w4) := ⟨_, _, _, _, rfl⟩
    have hA : Atoi env.intSize (r.FormValue "recursion") = (0, none) := by
      rw [h0]
      exact Atoi_zero env.intSize
    rw [instanceGet_local_basic env r w0 w1 w2 w3 w4 t c 0 none st et rerr hd hf hl hA
      (Or.inr rfl) hR]
    simp [Outcome.renders, Outcome.fullRenders]

/-- Witness of C4: on a member that hosts `web1`, recursion `1` renders the full
view once and never the basic one. -/
theorem instanceGet_recursion_selects_view_witness :
    localEnv.urlInstanceTypeDetect (sampleRequest "1") 0 = ("container", none, 1) ∧
    localEnv.forwardedResponseIfInstanceIsRemote (sampleRequest "1")
      (localEnv.projectParam (sampleRequest "1")) ((sampleRequest "1").muxVar "name")
      "container" 1 = (none, none, 2) ∧
    localEnv.LoadByProjectAndName (localEnv.projectParam (sampleRequest "1"))
      ((sampleRequest "1").muxVar "name") 2 = ("default/web1", none, 3) ∧
    (sampleRequest "1").FormValue "recursion" = "1" ∧
    (instanceGet localEnv (sampleRequest "1") 0).fullRenders = 1 ∧
    (instanceGet localEnv (sampleRequest "1") 0).renders = 0 :=
  ⟨rfl, rfl, rfl, rfl,
    (instanceGet_recursion_selects_view localEnv (sampleRequest "1") 0 1 2 3 "container"
      "default/web1" rfl rfl rfl).1 rfl⟩

/-- C5: on the local path with the full view selected (the recursion value
parsed to an integer other than zero), an error from `RenderFull` makes
`instanceGet` return `SmartError` of that error, whatever state and etag came
with it; the response is never a sync response. -/
theorem instanceGet_full_render_error (env : Env W E V T I X) (r : Request)
    (w0 w1 w2 w3 w4 : W) (t : T) (c : I) (n : Int) (st et : V) (e : E)
    (hd : env.urlInstanceTypeDetect r w0 = (t, none, w1))
    (hf : env.forwardedResponseIfInstanceIsRemote r (env.projectParam r) (r.muxVar "name") t w1
      = (none, none, w2))
    (hl : env.LoadByProjectAndName (env.projectParam r) (r.muxVar "name") w2 = (c, none, w3))
    (hA : Atoi env.intSize (r.FormValue "recursion") = (n, none))
    (hn : n ≠ 0)
    (hR : env.RenderFull c w3 = (st, et, some e, w4)) :
    (instanceGet env r w0).resp = Response.SmartError e ∧
    ∀ (b : Bool) (m g : V), (instanceGet env r w0).resp ≠ Response.SyncResponseETag b m g := by
  rw [instanceGet_local_full env r w0 w1 w2 w3 w4 t c n st et (some e) hd hf hl hA hn hR]
  refine ⟨rfl, ?_⟩
  intro b m g h
  cases h

/-- Witness of C5: `RenderFull` fails with `snapshots unavailable` next to a
partial state; the caller sees the error response only. -/
theorem instanceGet_full_render_error_witness :
    brokenFullEnv.urlInstanceTypeDetect (sampleRequest "1") 0 = ("container", none, 1) ∧
    brokenFullEnv.forwardedResponseIfInstanceIsRemote (sampleRequest "1")
      (brokenFullEnv.projectParam (sampleRequest "1")) ((sampleRequest "1").muxVar "name")
      "container" 1 = (none, none, 2) ∧
    brokenFullEnv.LoadByProjectAndName (brokenFullEnv.projectParam (sampleRequest "1"))
      ((sampleRequest "1").muxVar "name") 2 = ("default/web1", none, 3) ∧
    Atoi brokenFullEnv.intSize ((sampleRequest "1").FormValue "recursion") = (1, none) ∧
    (1 : Int) ≠ 0 ∧
    brokenFullEnv.RenderFull "default/web1" 3
      = ("partial", "etag1", some "snapshots unavailable", 4) ∧
    (instanceGet brokenFullEnv (sampleRequest "1") 0).resp
      = Response.SmartError "snapshots unavailable" ∧
    ∀ (b : Bool) (m g : String),
      (instanceGet brokenFullEnv (sampleRequest "1") 0).resp
        ≠ Response.SyncResponseETag b m g :=
  ⟨rfl, rfl, rfl, by decide, by decide, rfl,
    instanceGet_full_render_error brokenFullEnv (sampleRequest "1") 0 1 2 3 4 "container"
      "default/web1" 1 "partial" "etag1" "snapshots unavailable" rfl rfl rfl (by decide)
      (by decide) rfl⟩

/-- C6: when type detection succeeds, the forwarding check returns nil, nil, the
loader succeeds for the project and name of the request, and the selected
render (the basic one when the recursion value failed to parse or is zero, the
full one otherwise) returns a state and an etag with a nil error, `instanceGet`
returns `SyncResponseETag(true, state, etag)` with that very state and etag, and
the loader was called with the project and name of the request. -/
theorem instanceGet_local_success (env : Env W E V T I X) (r : Request)
    (w0 w1 w2 w3 w4 : W) (t : T) (c : I) (n : Int) (aerr : Option NumError) (st et : V)
    (hd : env.urlInstanceTypeDetect r w0 = (t, none, w1))
    (hf : env.forwardedResponseIfInstanceIsRemote r (env.projectParam r) (r.muxVar "name") t w1
      = (none, none, w2))
    (hl : env.LoadByProjectAndName (env.projectParam r) (r.muxVar "name") w2 = (c, none, w3))
    (hA : Atoi env.intSize (r.FormValue "recursion") = (n, aerr))
    (hR : (if aerr ≠ none ∨ n = 0 then env.Render c w3 else env.RenderFull c w3)
      = (st, et, none, w4)) :
    (instanceGet env r w0).resp = Response.SyncResponseETag true st et ∧
    Call.LoadByProjectAndName (env.projectParam r) (r.muxVar "name")
      ∈ (instanceGet env r w0).calls := by
  by_cases hrec : aerr ≠ none ∨ n = 0
  · rw [if_pos hrec] at hR
    rw [instanceGet_local_basic env r w0 w1 w2 w3 w4 t c n aerr st et none hd hf hl hA hrec hR]
    simp
  · rw [if_neg hrec] at hR
    have hnone : aerr = none := by
      cases aerr with
      | none => rfl
      | some k => exact absurd (Or.inl (by simp)) hrec
    have hn : n ≠ 0 := fun h => hrec (Or.inr h)
    subst hnone
    rw [instanceGet_local_full env r w0 w1 w2 w3 w4 t c n st et none hd hf hl hA hn hR]
    simp

/-- Witness of C6: the basic view of `web1` on the member that hosts it. -/
theorem instanceGet_local_success_witness :
    localEnv.urlInstanceTypeDetect (sampleRequest "0") 0 = ("container", none, 1) ∧
    localEnv.forwardedResponseIfInstanceIsRemote (sampleRequest "0")
      (localEnv.projectParam (sampleRequest "0")) ((sampleRequest "0").muxVar "name")
      "container" 1 = (none, none, 2) ∧
    localEnv.LoadByProjectAndName (localEnv.projectParam (sampleRequest "0"))
      ((sampleRequest "0").muxVar "name") 2 = ("default/web1", none, 3) ∧
    Atoi localEnv.intSize ((sampleRequest "0").FormValue "recursion") = (0, none) ∧
    (if (none : Option NumError) ≠ none ∨ (0 : Int) = 0 then localEnv.Render "default/web1" 3
      else localEnv.RenderFull "default/web1" 3) = ("basic", "etag0", none, 4) ∧
    (instanceGet localEnv (sampleRequest "0") 0).resp
      = Response.SyncResponseETag true "basic" "etag0" ∧
    Call.LoadByProjectAndName "default" "web1"
      ∈ (instanceGet localEnv (sampleRequest "0") 0).calls :=
  ⟨rfl, rfl, rfl, by decide, rfl,
    instanceGet_local_success localEnv (sampleRequest "0") 0 1 2 3 4 "container"
      "default/web1" 0 none "basic" "etag0" rfl rfl rfl (by decide) rfl⟩

/-- C7: when the forwarding check returns nil, nil and the loader fails,
`instanceGet` returns `SmartError` of the loader's error; the loader is called
exactly once, with the project and name of the request, and neither `Render`
nor `RenderFull` is called. -/
theorem instanceGet_load_error (env : Env W E V T I X) (r : Request)
    (w0 w1 w2 w3 : W) (t : T) (c : I) (e : E)
    (hd : env.urlInstanceTypeDetect r w0 = (t, none, w1))
    (hf : env.forwardedResponseIfInstanceIsRemote r (env.projectParam r) (r.muxVar "name") t w1
      = (none, none, w2))
    (hl : env.LoadByProjectAndName (env.projectParam r) (r.muxVar "name") w2 = (c, some e, w3)) :
    (instanceGet env r w0).resp = Response.SmartError e ∧
    (instanceGet env r w0).loads = 1 ∧
    (instanceGet env r w0).calls.count
      (Call.LoadByProjectAndName (env.projectParam r) (r.muxVar "name")) = 1 ∧
    (instanceGet env r w0).renders = 0 ∧
    (instanceGet env r w0).fullRenders = 0 := by
  rw [instanceGet_of_load_error env r w0 w1 w2 w3 t c e hd hf hl]
  simp [Outcome.loads, Outcome.renders, Outcome.fullRenders, Call.isLoad]

/-- Witness of C7: the loader answers `not found`; one loader call, no render. -/
theorem instanceGet_load_error_witness :
    notFoundEnv.urlInstanceTypeDetect (sampleRequest "1") 0 = ("container", none, 1) ∧
    notFoundEnv.forwardedResponseIfInstanceIsRemote (sampleRequest "1")
      (notFoundEnv.projectParam (sampleRequest "1")) ((sampleRequest "1").muxVar "name")
      "container" 1 = (none, none, 2) ∧
    notFoundEnv.LoadByProjectAndName (notFoundEnv.projectParam (sampleRequest "1"))
      ((sampleRequest "1").muxVar "name") 2 = ("default/web1", some "not found", 3) ∧
    (instanceGet notFoundEnv (sampleRequest "1") 0).resp = Response.SmartError "not found" ∧
    (instanceGet notFoundEnv (sampleRequest "1") 0).loads = 1 ∧
    (instanceGet notFoundEnv (sampleRequest "1") 0).calls.count
      (Call.LoadByProjectAndName (notFoundEnv.projectParam (sampleRequest "1"))
        ((sampleRequest "1").muxVar "name")) = 1 ∧
    (instanceGet notFoundEnv (sampleRequest "1") 0).renders = 0 ∧
    (instanceGet notFoundEnv (sampleRequest "1") 0).fullRenders = 0 :=
  ⟨rfl, rfl, rfl,
    instanceGet_load_error notFoundEnv (sampleRequest "1") 0 1 2 3 "container" "default/web1"
      "not found" rfl rfl rfl⟩

/-- C10: on the local path, a recursion value that parses to an integer other
than zero calls `RenderFull` (so do the values `2`, `-1` and `+1`), and the
basic `Render` is called if and only if the parsed value is zero or parsing
failed. -/
theorem instanceGet_nonzero_recursion_is_full (env : Env W E V T I X) (r : Request)
    (w0 w1 w2 w3 : W) (t : T) (c : I) (n : Int) (aerr : Option NumError)
    (hd : env.urlInstanceTypeDetect r w0 = (t, none, w1))
    (hf : env.forwardedResponseIfInstanceIsRemote r (env.projectParam r) (r.muxVar "name") t w1
      = (none, none, w2))
    (hl : env.LoadByProjectAndName (env.projectParam r) (r.muxVar "name") w2 = (c, none, w3))
    (hA : Atoi env.intSize (r.FormValue "recursion") = (n, aerr)) :
    (aerr = none ∧ n ≠ 0 → (instanceGet env r w0).fullRenders = 1) ∧
    (1 ≤ (instanceGet env r w0).renders ↔ (n = 0 ∨ aerr ≠ none)) ∧
    (r.FormValue "recursion" ∈ ["2", "-1", "+1"] → (instanceGet env r w0).fullRenders = 1) := by
  have hfull : aerr = none ∧ n ≠ 0 →
      (instanceGet env r w0).fullRenders = 1 ∧ (instanceGet env r w0).renders = 0 := by
    rintro ⟨ha, hn⟩
    subst ha
    obtain ⟨st, et, rerr, w4, hR⟩ :
        ∃ st et rerr w4, env.RenderFull c w3 = (st, et, rerr, w4) := ⟨_, _, _, _, rfl⟩
    rw [instanceGet_local_full env r w0 w1 w2 w3 w4 t c n st et rerr hd hf hl hA hn hR]
    simp [Outcome.renders, Outcome.fullRenders]
  have hbasic : aerr ≠ none ∨ n = 0 → (instanceGet env r w0).renders = 1 := by
    intro hrec
    obtain ⟨st, et, rerr, w4, hR⟩ :
        ∃ st et rerr w4, env.Render c w3 = (st, et, rerr, w4) := ⟨_, _, _, _, rfl⟩
    rw [instanceGet_local_basic env r w0 w1 w2 w3 w4 t c n aerr st et rerr hd hf hl hA hrec hR]
    simp [Outcome.renders]
  refine ⟨fun h => (hfull h).1, ⟨?_, ?_⟩, ?_⟩
  · intro hge
    by_cases hn : n = 0
    · exact Or.inl hn
    · right
      intro ha
      have h := (hfull ⟨ha, hn⟩).2
      omega
  · intro h
    have h1 := hbasic (Or.symm h)
    omega
  · intro hmem
    apply fun h => (hfull h).1
    have hAs : ∀ s, s ∈ ["2", "-1", "+1"] →
        (Atoi env.intSize s).2 = none ∧ (Atoi env.intSize s).1 ≠ 0 := by
      intro s hs
      simp only [List.mem_cons, List.mem_singleton, List.not_mem_nil, or_false] at hs
      rcases hs with h | h | h <;> subst h <;> cases env.intSize <;> decide
    have h2 := hAs _ hmem
    rw [hA] at h2
    exact h2

/-- Witness of C10: recursion `+1` parses to one, and the full view is rendered. -/
theorem instanceGet_nonzero_recursion_is_full_witness :
    localEnv.urlInstanceTypeDetect (sampleRequest "+1") 0 = ("container", none, 1) ∧
    localEnv.forwardedResponseIfInstanceIsRemote (sampleRequest "+1")
      (localEnv.projectParam (sampleRequest "+1")) ((sampleRequest "+1").muxVar "name")
      "container" 1 = (none, none, 2) ∧
    localEnv.LoadByProjectAndName (localEnv.projectParam (sampleRequest "+1"))
      ((sampleRequest "+1").muxVar "name") 2 = ("default/web1", none, 3) ∧
    Atoi localEnv.intSize ((sampleRequest "+1").FormValue "recursion") = (1, none) ∧
    (instanceGet localEnv (sampleRequest "+1") 0).fullRenders = 1 ∧
    ¬ 1 ≤ (instanceGet localEnv (sampleRequest "+1") 0).renders := by
  have h := instanceGet_nonzero_recursion_is_full localEnv (sampleRequest "+1") 0 1 2 3
    "container" "default/web1" 1 none rfl rfl rfl (by decide)
  exact ⟨rfl, rfl, rfl, by decide, h.1 ⟨rfl, by decide⟩,
    fun hge => by
      rcases h.2.1.mp hge with h0 | h0
      · exact absurd h0 (by decide)
      · exact h0 rfl⟩

/-! ## The claims about the zone driver -/

namespace Zone

/-- C8: `Delete` fails with a Conflict error if and only if `UsedBy` answers with
a non-empty list at call time; when `UsedBy` answers with the empty list,
`Delete` succeeds and the new store holds exactly the old records other than
the deleted one. -/
theorem Delete_conflict_iff_usedBy (st : Store) (z : Handle) :
    (Delete st z = Except.error DriverError.Conflict ↔
      ∃ u, UsedBy st z = Except.ok u ∧ u ≠ []) ∧
    (UsedBy st z = Except.ok [] →
      ∃ st2, Delete st z = Except.ok st2 ∧
        (∀ h, h ∈ st2.zones ↔ (h ∈ st.zones ∧ h.id ≠ z.id)) ∧
        st2.usedByIndex = st.usedByIndex) := by
  constructor
  · unfold Delete
    cases hidx : st.usedByIndex with
    | none => simp [UsedBy, hidx]
    | some idx =>
      cases hu : (idx.lookup z.id).getD [] with
      | nil => simp [UsedBy, hidx, hu]
      | cons a u => simp [UsedBy, hidx, hu]
  · intro hu
    refine ⟨{ st with zones := st.zones.filter fun h => h.id ≠ z.id }, ?_, ?_, rfl⟩
    · unfold Delete
      rw [hu]
    · intro h
      simp [List.mem_filter]

/-- Witness of C8, scenario 2: while `network/lan0` references `example.com.`
the delete is a Conflict; once nothing references it the delete succeeds and a
later load of the zone is NotFound. -/
theorem Delete_conflict_iff_usedBy_witness :
    Delete (sampleStore ["network/lan0"]) sampleZone = Except.error DriverError.Conflict ∧
    UsedBy (sampleStore []) sampleZone = Except.ok [] ∧
    (∃ st2, Delete (sampleStore []) sampleZone = Except.ok st2 ∧
      Load st2 "default" "example.com." = Except.error DriverError.NotFound) := by
  have h := Delete_conflict_iff_usedBy (sampleStore ["network/lan0"]) sampleZone
  have h2 := Delete_conflict_iff_usedBy (sampleStore []) sampleZone
  refine ⟨h.1.mpr ⟨["network/lan0"], rfl, by decide⟩, rfl, ?_⟩
  obtain ⟨st2, hdel, _, _⟩ := h2.2 rfl
  refine ⟨st2, hdel, ?_⟩
  have hst : st2 = ⟨[⟨2, "default", "lab.example."⟩], some [(1, [])]⟩ := by
    have hd2 : Delete (sampleStore []) sampleZone
        = Except.ok ⟨[⟨2, "default", "lab.example."⟩], some [(1, [])]⟩ := rfl
    rw [hd2] at hdel
    cases hdel
    rfl
  rw [hst]
  rfl

/-- Counterexample to C9 as stated: `Delete` is one of the mutating operations
of the interface and takes no argument at all, so it carries no client type. -/
theorem Delete_carries_no_clientType :
    ∃ m, m ∈ mutating ∧ m.name = "Delete" ∧ m.params = [] ∧ m.carriesClientType = false :=
  ⟨⟨"Modifications.", "Delete", [], ["error"]⟩, by decide, rfl, rfl, rfl⟩

/-- C9, amended: the mutating operations of the interface are `Update` and
`Delete`; `Update` takes the client type as an explicit argument next to the
configuration, `Delete` takes no argument, and `Update` is the only method of
the whole interface that carries the client type. -/
theorem clientType_only_on_Update :
    mutating.map (fun m => (m.name, m.params.map Prod.snd)) =
      [("Update", ["*api.NetworkZonePut", "request.ClientType"]), ("Delete", [])] ∧
    (NetworkZone.filter Method.carriesClientType).map Method.name = ["Update"] := by
  decide

end Zone

end Lxd
